import Mathlib

/-!
Shallow embedding of the nicotine window-cycling engine (src/cycle_state.rs)
and of the backend window enumerators (src/x11_manager.rs,
src/wayland_backends.rs), together with theorems settling the frozen claims
about the cycling/selection state machine and the enumerators.

Modelling conventions:
* Rust `usize`/`u32` values are modelled as `Nat`; the only place where the
  32-bit bound matters (hexadecimal id parsing with `u32::from_str_radix`,
  whose overflow error is turned into 0 by `unwrap_or(0)`) carries an explicit
  `2 ^ 32` bound.
* The window-manager backend (`&dyn WindowManager`) is modelled as an oracle
  `WM` telling, per window id, whether each backend call succeeds.  Every
  backend call issued by an engine operation is recorded, in order, in a
  trace of `WMCall`s; the engine's `let _ = wm.restore_window(..)` /
  `let _ = wm.minimize_window(..)` discards mean the oracle's answer for
  those calls never influences state or result, only `activate_window`'s
  answer does.
* The persisted index mirror (the file `/tmp/nicotine-index` written by
  `CycleState::write_index`) is modelled as an extra `mirror` field of the
  state; the best-effort `fs::write` (failures swallowed by `let _ =`) is
  modelled as the successful execution.
-/

namespace Nicotine

/-- Window record: `EveWindow { id: u32, title: String }` from the repository's
window model (ids carried opaquely, so `Nat` suffices). -/
structure EveWindow where
  id : Nat
  title : String
deriving DecidableEq, Repr, Inhabited

/-- Backend oracle: for each window id, whether the corresponding
`WindowManager` call would succeed. -/
structure WM where
  restore_ok : Nat → Bool
  activate_ok : Nat → Bool
  minimize_ok : Nat → Bool

/-- One backend call issued by an engine operation. -/
inductive WMCall where
  | restore (id : Nat)
  | activate (id : Nat)
  | minimize (id : Nat)
deriving DecidableEq, Repr

/-- State of `CycleState` (src/cycle_state.rs lines 8-11), extended with the
persisted index mirror written by `write_index`. -/
structure CycleState where
  current_index : Nat
  windows : List EveWindow
  mirror : Option Nat
deriving DecidableEq, Repr

/-- Embeds `CycleState::new` (a fresh engine; no mirror written yet). -/
def CycleState.new : CycleState :=
  { current_index := 0, windows := [], mirror := none }

/-- Total model of the Rust indexing `self.windows[i]​.id`; at every use site
the index is in range, so the default is never read. -/
def windowIdAt (ws : List EveWindow) (i : Nat) : Nat :=
  (ws.getD i { id := 0, title := "" }).id

/-- Embeds `Iterator::position` (first index satisfying the predicate), also
used for the first-match loop in `sync_with_active`. -/
def positionAux {α : Type} (p : α → Bool) : List α → Nat → Option Nat
  | [], _ => none
  | a :: l, i => if p a then some i else positionAux p l (i + 1)

/-- First index of an element satisfying `p`, as in Rust's
`iter().position(p)`. -/
def position {α : Type} (p : α → Bool) (l : List α) : Option Nat :=
  positionAux p l 0

/-- Embeds `CycleState::update_windows` (lines 21-27): replace the list, then
clamp the index to 0 when it is out of range and the new list is nonempty. -/
def CycleState.update_windows (s : CycleState) (ws : List EveWindow) : CycleState :=
  let s1 : CycleState := { s with windows := ws }
  if s1.windows.length ≤ s1.current_index ∧ ¬ s1.windows.isEmpty then
    { s1 with current_index := 0 }
  else s1

/-- Embeds `CycleState::cycle_forward` (lines 29-54).  Returns the new state,
the trace of backend calls in issue order, and the success of the operation
(`Ok(())` ↔ `true`; the only propagated failure is `activate_window`'s). -/
def CycleState.cycle_forward (s : CycleState) (wm : WM) (minimize_inactive : Bool) :
    CycleState × List WMCall × Bool :=
  if s.windows.isEmpty then (s, [], true)
  else
    let previous_index := s.current_index
    let ci := (s.current_index + 1) % s.windows.length
    let s1 : CycleState := { s with current_index := ci, mirror := some ci }
    let new_window_id := windowIdAt s1.windows ci
    let pre : List WMCall := if minimize_inactive then [WMCall.restore new_window_id] else []
    if wm.activate_ok new_window_id then
      let post : List WMCall :=
        if minimize_inactive && previous_index != ci then
          [WMCall.minimize (windowIdAt s1.windows previous_index)]
        else []
      (s1, pre ++ [WMCall.activate new_window_id] ++ post, true)
    else
      (s1, pre ++ [WMCall.activate new_window_id], false)

/-- Embeds `CycleState::cycle_backward` (lines 56-90). -/
def CycleState.cycle_backward (s : CycleState) (wm : WM) (minimize_inactive : Bool) :
    CycleState × List WMCall × Bool :=
  if s.windows.isEmpty then (s, [], true)
  else
    let previous_index := s.current_index
    let ci := if s.current_index = 0 then s.windows.length - 1 else s.current_index - 1
    let s1 : CycleState := { s with current_index := ci, mirror := some ci }
    let new_window_id := windowIdAt s1.windows ci
    let pre : List WMCall := if minimize_inactive then [WMCall.restore new_window_id] else []
    if wm.activate_ok new_window_id then
      let post : List WMCall :=
        if minimize_inactive && previous_index != ci then
          [WMCall.minimize (windowIdAt s1.windows previous_index)]
        else []
      (s1, pre ++ [WMCall.activate new_window_id] ++ post, true)
    else
      (s1, pre ++ [WMCall.activate new_window_id], false)

/-- Embeds `CycleState::set_current_index` (lines 114-118). -/
def CycleState.set_current_index (s : CycleState) (index : Nat) : CycleState :=
  if index < s.windows.length ∨ s.windows.isEmpty then
    { s with current_index := index }
  else s

/-- Embeds `CycleState::sync_with_active` (lines 120-128): adopt the position
of the first window whose id matches; silent no-op otherwise. -/
def CycleState.sync_with_active (s : CycleState) (active_window : Nat) : CycleState :=
  match position (fun w => w.id == active_window) s.windows with
  | some i => { s with current_index := i }
  | none => s

/-- Error classes produced by `switch_to`: the two `anyhow::bail!`/`anyhow!`
resolution errors, and a propagated `activate_window` failure. -/
inductive SwitchErr where
  | outOfRange
  | notFound
  | activateFailed
deriving DecidableEq, Repr

/-- Embeds the target-resolution part of `CycleState::switch_to`
(lines 144-175): reached only with `target ≥ 1`, so the Rust
`target - 1` is the same truncated subtraction as here; the
`characters[target_idx]` access is in range by the preceding length check,
so `getD` never reads its default. -/
def CycleState.resolveTarget (s : CycleState) (target : Nat)
    (character_order : Option (List String)) : Except SwitchErr Nat :=
  match character_order with
  | some characters =>
    let target_idx := target - 1
    if characters.length ≤ target_idx then Except.error SwitchErr.outOfRange
    else
      let target_name := characters.getD target_idx ""
      match position (fun w => w.title == target_name) s.windows with
      | some i => Except.ok i
      | none => Except.error SwitchErr.notFound
  | none =>
    let target_idx := target - 1
    if s.windows.length ≤ target_idx then Except.error SwitchErr.outOfRange
    else Except.ok target_idx

/-- Embeds `CycleState::switch_to` (lines 133-200).  Returns the new state,
the backend-call trace, and `none` for `Ok(())` or the error class. -/
def CycleState.switch_to (s : CycleState) (target : Nat) (wm : WM)
    (minimize_inactive : Bool) (character_order : Option (List String)) :
    CycleState × List WMCall × Option SwitchErr :=
  if s.windows.isEmpty || target == 0 then (s, [], none)
  else
    match s.resolveTarget target character_order with
    | Except.error e => (s, [], some e)
    | Except.ok target_index =>
      if target_index = s.current_index then (s, [], none)
      else
        let previous_index := s.current_index
        let s1 : CycleState := { s with current_index := target_index, mirror := some target_index }
        let new_window_id := windowIdAt s1.windows target_index
        let pre : List WMCall :=
          if minimize_inactive then [WMCall.restore new_window_id] else []
        if wm.activate_ok new_window_id then
          let post : List WMCall :=
            if minimize_inactive then [WMCall.minimize (windowIdAt s1.windows previous_index)]
            else []
          (s1, pre ++ [WMCall.activate new_window_id] ++ post, none)
        else
          (s1, pre ++ [WMCall.activate new_window_id], some SwitchErr.activateFailed)

/-- One engine operation, carrying the arguments the corresponding Rust
method takes (the backend oracle included, since cycling/switching call it). -/
inductive Op where
  | update (ws : List EveWindow)
  | forward (wm : WM) (mi : Bool)
  | backward (wm : WM) (mi : Bool)
  | switchTo (target : Nat) (wm : WM) (mi : Bool) (order : Option (List String))
  | sync (activeId : Nat)
  | setIndex (i : Nat)

/-- State effect of one engine operation. -/
def applyOp (s : CycleState) : Op → CycleState
  | Op.update ws => s.update_windows ws
  | Op.forward wm mi => (s.cycle_forward wm mi).1
  | Op.backward wm mi => (s.cycle_backward wm mi).1
  | Op.switchTo t wm mi ord => (s.switch_to t wm mi ord).1
  | Op.sync a => s.sync_with_active a
  | Op.setIndex i => s.set_current_index i

/-- Runs a sequence of engine operations. -/
def runOps : CycleState → List Op → CycleState
  | s, [] => s
  | s, op :: ops => runOps (applyOp s op) ops

/-- The spec's index invariant: a nonempty window list keeps the current
index strictly inside the list. -/
def IndexInv (s : CycleState) : Prop :=
  s.windows ≠ [] → s.current_index < s.windows.length

/-- Iterated `cycle_forward` (state component only). -/
def forwardStateN (wm : WM) (mi : Bool) : Nat → CycleState → CycleState
  | 0, s => s
  | k + 1, s => forwardStateN wm mi k (s.cycle_forward wm mi).1

/-- Recognizes an `activate` call in a trace. -/
def isActivateCall : WMCall → Bool
  | WMCall.activate _ => true
  | _ => false

/-- Recognizes a `minimize` call in a trace. -/
def isMinimizeCall : WMCall → Bool
  | WMCall.minimize _ => true
  | _ => false

/-- Backend oracle on which every call succeeds. -/
def allOkWM : WM :=
  { restore_ok := fun _ => true, activate_ok := fun _ => true, minimize_ok := fun _ => true }

/-- Backend oracle on which every `activate` fails (restore/minimize fine). -/
def activateFailWM : WM :=
  { restore_ok := fun _ => true, activate_ok := fun _ => false, minimize_ok := fun _ => true }

/-- Boolean prefix test on character lists (Rust `str::starts_with`). -/
def leadsWith : List Char → List Char → Bool
  | [], _ => true
  | _ :: _, [] => false
  | p :: ps, c :: cs => p == c && leadsWith ps cs

/-- Fuelled repeated removal of a leading pattern.  Each removal consumes at
least one character, so `s.length` fuel always suffices (see `trimLeading`). -/
def trimLeadingFuel (p : List Char) : Nat → List Char → List Char
  | 0, s => s
  | fuel + 1, s =>
    if p.length ≠ 0 ∧ leadsWith p s then trimLeadingFuel p fuel (s.drop p.length)
    else s

/-- Embeds Rust `str::trim_start_matches(p)`: repeatedly removes the pattern
`p` from the front of `s` while it is present. -/
def trimLeading (p s : List Char) : List Char :=
  trimLeadingFuel p s.length s

/-- Boolean substring test (Rust `str::contains` with a literal pattern). -/
def containsSub (s sub : List Char) : Bool :=
  (List.range (s.length + 1)).any fun i => leadsWith sub (s.drop i)

/-- The fixed title prefix the enumerators match, `"EVE - "`. -/
def eveTitleChars : List Char := "EVE - ".data

/-- The fixed excluded substring, `"Launcher"`. -/
def launcherChars : List Char := "Launcher".data

/-- The enumerators' title filter:
`title.starts_with("EVE - ") && !title.contains("Launcher")`. -/
def isEveTitle (t : String) : Bool :=
  leadsWith eveTitleChars t.data && ! containsSub t.data launcherChars

/-- Embeds `title.trim_start_matches("EVE - ")`. -/
def stripEve (t : String) : String :=
  String.mk (trimLeading eveTitleChars t.data)

/-- Modelled from the claim's words, for the refinement comparison with
`stripEve`: the full title with the prefix removed (one leading occurrence
dropped). -/
def stripEveOnce (t : String) : String :=
  String.mk (t.data.drop eveTitleChars.length)

/-- Numeric value of one ASCII digit in radices up to 16, as accepted by
Rust's integer parsers (upper- and lowercase hex letters). -/
def digitVal (c : Char) : Option Nat :=
  if '0' ≤ c ∧ c ≤ '9' then some (c.toNat - '0'.toNat)
  else if 'a' ≤ c ∧ c ≤ 'f' then some (10 + c.toNat - 'a'.toNat)
  else if 'A' ≤ c ∧ c ≤ 'F' then some (10 + c.toNat - 'A'.toNat)
  else none

/-- Accumulating digit fold; `none` on any character that is not a digit of
the given radix. -/
def digitsValAux (radix : Nat) : List Char → Nat → Option Nat
  | [], acc => some acc
  | c :: cs, acc =>
    match digitVal c with
    | some d => if d < radix then digitsValAux radix cs (acc * radix + d) else none
    | none => none

/-- Embeds `u32::from_str_radix(s, radix)` / `str::parse::<u32>` as an
`Option`: an optional leading `+`, then at least one digit, and the value
must fit in 32 bits (Rust reports overflow as an error, which the callers
below turn into 0 via `unwrap_or(0)`). -/
def parseU32 (radix : Nat) (s : String) : Option Nat :=
  let cs := match s.data with
    | '+' :: rest => rest
    | cs => cs
  if cs.isEmpty then none
  else
    match digitsValAux radix cs 0 with
    | some n => if n < 2 ^ 32 then some n else none
    | none => none

/-- Embedding of `X11Manager::get_eve_windows` (src/x11_manager.rs lines
35-72) over its per-window inputs: the client-list ids paired with the
outcome of `get_window_title` (`none` when the title lookup failed, in which
case the window is skipped). -/
def X11Manager.get_eve_windows : List (Nat × Option String) → List EveWindow
  | [] => []
  | (_, none) :: rest => X11Manager.get_eve_windows rest
  | (id, some title) :: rest =>
    if isEveTitle title then
      { id := id, title := stripEve title } :: X11Manager.get_eve_windows rest
    else X11Manager.get_eve_windows rest

/-- Embeds the id conversion in `KWinManager::get_eve_windows`:
strip `"0x"` and parse hex, else parse decimal, `unwrap_or(0)` either way. -/
def kwinParseId (idStr : String) : Nat :=
  match idStr.data with
  | '0' :: 'x' :: hex => (parseU32 16 (String.mk hex)).getD 0
  | _ => (parseU32 10 idStr).getD 0

/-- Embedding of `KWinManager::get_eve_windows` (src/wayland_backends.rs
lines 68-91) over the `(id string, title)` pairs produced by
`get_all_windows`; only windows whose parsed id is nonzero are kept. -/
def KWinManager.get_eve_windows : List (String × String) → List EveWindow
  | [] => []
  | (idStr, title) :: rest =>
    if isEveTitle title then
      let id := kwinParseId idStr
      if id ≠ 0 then
        { id := id, title := stripEve title } :: KWinManager.get_eve_windows rest
      else KWinManager.get_eve_windows rest
    else KWinManager.get_eve_windows rest

/-- One Hyprland client object, reduced to the two fields
`HyprlandManager::get_eve_windows` reads: the optional string values of
`title` and `address`. -/
structure HyprClient where
  title : Option String
  address : Option String
deriving DecidableEq, Repr

/-- Embeds the address conversion in `HyprlandManager::get_eve_windows`:
strip `"0x"` and parse hex with `unwrap_or(0)`; anything else is 0. -/
def hyprParseAddr (address : String) : Nat :=
  match address.data with
  | '0' :: 'x' :: hex => (parseU32 16 (String.mk hex)).getD 0
  | _ => 0

/-- Embedding of `HyprlandManager::get_eve_windows` (src/wayland_backends.rs
lines 427-453) over the client objects returned by `hyprctl clients -j`
(a missing `title` or `address` field skips the client; unlike the KWin
backend there is no nonzero-id check). -/
def HyprlandManager.get_eve_windows : List HyprClient → List EveWindow
  | [] => []
  | c :: rest =>
    match c.title with
    | some title =>
      if isEveTitle title then
        match c.address with
        | some addr =>
          { id := hyprParseAddr addr, title := stripEve title } ::
            HyprlandManager.get_eve_windows rest
        | none => HyprlandManager.get_eve_windows rest
      else HyprlandManager.get_eve_windows rest
    | none => HyprlandManager.get_eve_windows rest

/-! Structural lemmas about the engine operations. -/

theorem isEmpty_false_of_ne_nil {α : Type} {l : List α} (h : l ≠ []) :
    l.isEmpty = false := by
  cases l with
  | nil => exact absurd rfl h
  | cons a l => rfl

theorem positionAux_lt {α : Type} (p : α → Bool) (l : List α) :
    ∀ (i j : Nat), positionAux p l i = some j → j < i + l.length := by
  induction l with
  | nil => intro i j h; simp [positionAux] at h
  | cons a l ih =>
    intro i j h
    simp only [positionAux] at h
    split at h
    · cases h
      simp only [List.length_cons]
      omega
    · have := ih (i + 1) j h
      simp only [List.length_cons]
      omega

theorem position_lt {α : Type} {p : α → Bool} {l : List α} {j : Nat}
    (h : position p l = some j) : j < l.length := by
  have := positionAux_lt p l 0 j h
  omega

theorem update_windows_windows (s : CycleState) (ws : List EveWindow) :
    (s.update_windows ws).windows = ws := by
  rw [CycleState.update_windows]
  split <;> rfl

theorem update_windows_mirror (s : CycleState) (ws : List EveWindow) :
    (s.update_windows ws).mirror = s.mirror := by
  rw [CycleState.update_windows]
  split <;> rfl

theorem update_windows_index_keep (s : CycleState) (ws : List EveWindow)
    (h : s.current_index < ws.length) :
    (s.update_windows ws).current_index = s.current_index := by
  rw [CycleState.update_windows]
  split
  · rename_i hc
    exact absurd hc.1 (by simp only [Nat.not_le]; exact h)
  · rfl

theorem update_windows_index_reset (s : CycleState) (ws : List EveWindow)
    (h1 : ws.length ≤ s.current_index) (h2 : ws ≠ []) :
    (s.update_windows ws).current_index = 0 := by
  rw [CycleState.update_windows]
  split
  · rfl
  · rename_i hc
    exact absurd ⟨h1, by simp [isEmpty_false_of_ne_nil h2]⟩ hc

theorem update_windows_index_empty (s : CycleState) (ws : List EveWindow)
    (h : ws = []) :
    (s.update_windows ws).current_index = s.current_index := by
  subst h
  rw [CycleState.update_windows]
  split
  · rename_i hc
    simp [List.isEmpty] at hc
  · rfl

theorem cycle_forward_empty (s : CycleState) (wm : WM) (mi : Bool)
    (h : s.windows = []) : s.cycle_forward wm mi = (s, [], true) := by
  rw [CycleState.cycle_forward]
  simp [h]

theorem cycle_forward_state (s : CycleState) (wm : WM) (mi : Bool)
    (h : s.windows ≠ []) :
    (s.cycle_forward wm mi).1 =
      { s with current_index := (s.current_index + 1) % s.windows.length,
               mirror := some ((s.current_index + 1) % s.windows.length) } := by
  rw [CycleState.cycle_forward]
  simp only [isEmpty_false_of_ne_nil h, Bool.false_eq_true, if_false]
  split <;> rfl

theorem cycle_forward_calls (s : CycleState) (wm : WM) (mi : Bool)
    (h : s.windows ≠ []) :
    (s.cycle_forward wm mi).2.1 =
      (if mi then
        [WMCall.restore (windowIdAt s.windows ((s.current_index + 1) % s.windows.length))]
      else []) ++
      [WMCall.activate (windowIdAt s.windows ((s.current_index + 1) % s.windows.length))] ++
      (if wm.activate_ok (windowIdAt s.windows ((s.current_index + 1) % s.windows.length)) &&
          (mi && (s.current_index != (s.current_index + 1) % s.windows.length)) then
        [WMCall.minimize (windowIdAt s.windows s.current_index)]
      else []) := by
  rw [CycleState.cycle_forward]
  simp only [isEmpty_false_of_ne_nil h, Bool.false_eq_true, if_false]
  split
  · rename_i ha
    simp [ha]
  · rename_i ha
    simp [Bool.not_eq_true] at ha
    simp [ha]

theorem cycle_forward_result (s : CycleState) (wm : WM) (mi : Bool)
    (h : s.windows ≠ []) :
    (s.cycle_forward wm mi).2.2 =
      wm.activate_ok (windowIdAt s.windows ((s.current_index + 1) % s.windows.length)) := by
  rw [CycleState.cycle_forward]
  simp only [isEmpty_false_of_ne_nil h, Bool.false_eq_true, if_false]
  split
  · rename_i ha
    exact ha.symm
  · rename_i ha
    simp [Bool.not_eq_true] at ha
    exact ha.symm

theorem cycle_backward_empty (s : CycleState) (wm : WM) (mi : Bool)
    (h : s.windows = []) : s.cycle_backward wm mi = (s, [], true) := by
  rw [CycleState.cycle_backward]
  simp [h]

theorem cycle_backward_state (s : CycleState) (wm : WM) (mi : Bool)
    (h : s.windows ≠ []) :
    (s.cycle_backward wm mi).1 =
      { s with
          current_index :=
            if s.current_index = 0 then s.windows.length - 1 else s.current_index - 1,
          mirror :=
            some (if s.current_index = 0 then s.windows.length - 1
              else s.current_index - 1) } := by
  rw [CycleState.cycle_backward]
  simp only [isEmpty_false_of_ne_nil h, Bool.false_eq_true, if_false]
  split <;> (split <;> rfl)

theorem cycle_backward_calls (s : CycleState) (wm : WM) (mi : Bool)
    (h : s.windows ≠ []) :
    (s.cycle_backward wm mi).2.1 =
      (if mi then
        [WMCall.restore (windowIdAt s.windows
          (if s.current_index = 0 then s.windows.length - 1 else s.current_index - 1))]
      else []) ++
      [WMCall.activate (windowIdAt s.windows
        (if s.current_index = 0 then s.windows.length - 1 else s.current_index - 1))] ++
      (if wm.activate_ok (windowIdAt s.windows
            (if s.current_index = 0 then s.windows.length - 1 else s.current_index - 1)) &&
          (mi && (s.current_index !=
            (if s.current_index = 0 then s.windows.length - 1 else s.current_index - 1))) then
        [WMCall.minimize (windowIdAt s.windows s.current_index)]
      else []) := by
  rw [CycleState.cycle_backward]
  simp only [isEmpty_false_of_ne_nil h, Bool.false_eq_true, if_false]
  split
  · by_cases ha : wm.activate_ok (windowIdAt s.windows (s.windows.length - 1)) = true <;>
      simp [ha]
  · by_cases ha :
        wm.activate_ok (windowIdAt s.windows (s.current_index - 1)) = true <;>
      simp [ha]

theorem cycle_backward_result (s : CycleState) (wm : WM) (mi : Bool)
    (h : s.windows ≠ []) :
    (s.cycle_backward wm mi).2.2 =
      wm.activate_ok (windowIdAt s.windows
        (if s.current_index = 0 then s.windows.length - 1 else s.current_index - 1)) := by
  rw [CycleState.cycle_backward]
  simp only [isEmpty_false_of_ne_nil h, Bool.false_eq_true, if_false]
  split
  · by_cases ha : wm.activate_ok (windowIdAt s.windows (s.windows.length - 1)) = true <;>
      simp [ha]
  · by_cases ha :
        wm.activate_ok (windowIdAt s.windows (s.current_index - 1)) = true <;>
      simp [ha]

theorem switch_to_empty (s : CycleState) (t : Nat) (wm : WM) (mi : Bool)
    (ord : Option (List String)) (h : s.windows = []) :
    s.switch_to t wm mi ord = (s, [], none) := by
  rw [CycleState.switch_to]
  simp [h]

theorem switch_to_zero (s : CycleState) (wm : WM) (mi : Bool)
    (ord : Option (List String)) :
    s.switch_to 0 wm mi ord = (s, [], none) := by
  rw [CycleState.switch_to]
  simp

theorem switch_to_resolve_error (s : CycleState) (t : Nat) (wm : WM) (mi : Bool)
    (ord : Option (List String)) (e : SwitchErr)
    (h : s.windows ≠ []) (ht : t ≠ 0)
    (hr : s.resolveTarget t ord = Except.error e) :
    s.switch_to t wm mi ord = (s, [], some e) := by
  rw [CycleState.switch_to]
  simp only [isEmpty_false_of_ne_nil h, beq_iff_eq, ht, Bool.false_or, if_false,
    decide_eq_true_eq, if_neg ht, hr]

theorem switch_to_same (s : CycleState) (t : Nat) (wm : WM) (mi : Bool)
    (ord : Option (List String))
    (h : s.windows ≠ []) (ht : t ≠ 0)
    (hr : s.resolveTarget t ord = Except.ok s.current_index) :
    s.switch_to t wm mi ord = (s, [], none) := by
  rw [CycleState.switch_to]
  simp only [isEmpty_false_of_ne_nil h, beq_iff_eq, ht, Bool.false_or, if_false,
    decide_eq_true_eq, if_neg ht, hr]
  simp

theorem switch_to_change_state (s : CycleState) (t : Nat) (wm : WM) (mi : Bool)
    (ord : Option (List String)) (j : Nat)
    (h : s.windows ≠ []) (ht : t ≠ 0)
    (hr : s.resolveTarget t ord = Except.ok j) (hj : j ≠ s.current_index) :
    (s.switch_to t wm mi ord).1 =
      { s with current_index := j, mirror := some j } := by
  rw [CycleState.switch_to]
  simp only [isEmpty_false_of_ne_nil h, beq_iff_eq, ht, Bool.false_or, if_false,
    decide_eq_true_eq, if_neg ht, hr, if_neg hj]
  split <;> rfl

theorem switch_to_change_calls (s : CycleState) (t : Nat) (wm : WM) (mi : Bool)
    (ord : Option (List String)) (j : Nat)
    (h : s.windows ≠ []) (ht : t ≠ 0)
    (hr : s.resolveTarget t ord = Except.ok j) (hj : j ≠ s.current_index) :
    (s.switch_to t wm mi ord).2.1 =
      (if mi then [WMCall.restore (windowIdAt s.windows j)] else []) ++
      [WMCall.activate (windowIdAt s.windows j)] ++
      (if wm.activate_ok (windowIdAt s.windows j) && mi then
        [WMCall.minimize (windowIdAt s.windows s.current_index)]
      else []) := by
  rw [CycleState.switch_to]
  simp only [isEmpty_false_of_ne_nil h, beq_iff_eq, ht, Bool.false_or, if_false,
    decide_eq_true_eq, if_neg ht, hr, if_neg hj]
  split
  · rename_i ha
    simp [ha]
  · rename_i ha
    simp [Bool.not_eq_true] at ha
    simp [ha]

theorem switch_to_change_result (s : CycleState) (t : Nat) (wm : WM) (mi : Bool)
    (ord : Option (List String)) (j : Nat)
    (h : s.windows ≠ []) (ht : t ≠ 0)
    (hr : s.resolveTarget t ord = Except.ok j) (hj : j ≠ s.current_index) :
    (s.switch_to t wm mi ord).2.2 =
      (if wm.activate_ok (windowIdAt s.windows j) then none
        else some SwitchErr.activateFailed) := by
  rw [CycleState.switch_to]
  simp only [isEmpty_false_of_ne_nil h, beq_iff_eq, ht, Bool.false_or, if_false,
    decide_eq_true_eq, if_neg ht, hr, if_neg hj]
  split
  · rename_i ha
    simp [ha]
  · rename_i ha
    simp [Bool.not_eq_true] at ha
    simp [ha]

theorem resolveTarget_some_oor (s : CycleState) (t : Nat) (chars : List String)
    (h : chars.length ≤ t - 1) :
    s.resolveTarget t (some chars) = Except.error SwitchErr.outOfRange := by
  rw [CycleState.resolveTarget]
  dsimp only
  rw [if_pos h]

theorem resolveTarget_none_oor (s : CycleState) (t : Nat)
    (h : s.windows.length ≤ t - 1) :
    s.resolveTarget t none = Except.error SwitchErr.outOfRange := by
  rw [CycleState.resolveTarget]
  rw [if_pos h]

theorem resolveTarget_some_found (s : CycleState) (t : Nat) (chars : List String)
    (j : Nat) (hlen : t - 1 < chars.length)
    (hp : position (fun w => w.title == chars.getD (t - 1) "") s.windows = some j) :
    s.resolveTarget t (some chars) = Except.ok j := by
  rw [CycleState.resolveTarget]
  dsimp only
  rw [if_neg (by omega), hp]

theorem resolveTarget_some_notFound (s : CycleState) (t : Nat) (chars : List String)
    (hlen : t - 1 < chars.length)
    (hp : position (fun w => w.title == chars.getD (t - 1) "") s.windows = none) :
    s.resolveTarget t (some chars) = Except.error SwitchErr.notFound := by
  rw [CycleState.resolveTarget]
  dsimp only
  rw [if_neg (by omega), hp]

theorem resolveTarget_none_ok (s : CycleState) (t : Nat)
    (hlen : t - 1 < s.windows.length) :
    s.resolveTarget t none = Except.ok (t - 1) := by
  rw [CycleState.resolveTarget]
  rw [if_neg (by omega)]

theorem resolveTarget_ok_lt (s : CycleState) (t : Nat)
    (ord : Option (List String)) (j : Nat)
    (hr : s.resolveTarget t ord = Except.ok j) : j < s.windows.length := by
  cases ord with
  | none =>
    rw [CycleState.resolveTarget] at hr
    split at hr
    · simp at hr
    · rename_i hc
      cases hr
      omega
  | some chars =>
    rw [CycleState.resolveTarget] at hr
    dsimp only at hr
    split at hr
    · simp at hr
    · cases hp : position (fun w => w.title == chars.getD (t - 1) "") s.windows with
      | some i =>
        rw [hp] at hr
        cases hr
        exact position_lt hp
      | none =>
        rw [hp] at hr
        simp at hr

theorem resolveTarget_error_cases (s : CycleState) (t : Nat)
    (ord : Option (List String)) (e : SwitchErr)
    (hr : s.resolveTarget t ord = Except.error e) :
    e = SwitchErr.outOfRange ∨ e = SwitchErr.notFound := by
  cases ord with
  | none =>
    rw [CycleState.resolveTarget] at hr
    split at hr
    · cases hr
      exact Or.inl rfl
    · simp at hr
  | some chars =>
    rw [CycleState.resolveTarget] at hr
    dsimp only at hr
    split at hr
    · cases hr
      exact Or.inl rfl
    · cases hp : position (fun w => w.title == chars.getD (t - 1) "") s.windows with
      | some i =>
        rw [hp] at hr
        simp at hr
      | none =>
        rw [hp] at hr
        cases hr
        exact Or.inr rfl

theorem sync_with_active_found (s : CycleState) (a : Nat) (i : Nat)
    (hp : position (fun w => w.id == a) s.windows = some i) :
    s.sync_with_active a = { s with current_index := i } := by
  rw [CycleState.sync_with_active, hp]

theorem sync_with_active_missed (s : CycleState) (a : Nat)
    (hp : position (fun w => w.id == a) s.windows = none) :
    s.sync_with_active a = s := by
  rw [CycleState.sync_with_active, hp]

theorem set_current_index_accept (s : CycleState) (i : Nat)
    (h : i < s.windows.length ∨ s.windows = []) :
    s.set_current_index i = { s with current_index := i } := by
  rw [CycleState.set_current_index, if_pos]
  rcases h with h | h
  · exact Or.inl h
  · exact Or.inr (by simp [h])

theorem set_current_index_reject (s : CycleState) (i : Nat)
    (hne : s.windows ≠ []) (hle : s.windows.length ≤ i) :
    s.set_current_index i = s := by
  rw [CycleState.set_current_index, if_neg]
  rintro (hlt | he)
  · omega
  · rw [isEmpty_false_of_ne_nil hne] at he
    cases he

/-- Every single engine operation preserves the index invariant. -/
theorem applyOp_inv (s : CycleState) (op : Op) (h : IndexInv s) :
    IndexInv (applyOp s op) := by
  cases op with
  | update ws =>
    intro hne
    simp only [applyOp] at hne ⊢
    rw [update_windows_windows] at hne
    rw [update_windows_windows]
    by_cases hlt : s.current_index < ws.length
    · rw [update_windows_index_keep s ws hlt]
      exact hlt
    · rw [update_windows_index_reset s ws (Nat.le_of_not_lt hlt) hne]
      exact List.length_pos.mpr hne
  | forward wm mi =>
    intro hne
    simp only [applyOp] at hne ⊢
    by_cases hw : s.windows = []
    · exact absurd hw (by rw [cycle_forward_empty s wm mi hw] at hne; exact hne)
    · rw [cycle_forward_state s wm mi hw]
      exact Nat.mod_lt _ (List.length_pos.mpr hw)
  | backward wm mi =>
    intro hne
    simp only [applyOp] at hne ⊢
    by_cases hw : s.windows = []
    · exact absurd hw (by rw [cycle_backward_empty s wm mi hw] at hne; exact hne)
    · have hlen := List.length_pos.mpr hw
      have hci := h hw
      rw [cycle_backward_state s wm mi hw]
      dsimp only
      split <;> omega
  | switchTo t wm mi ord =>
    intro hne
    simp only [applyOp] at hne ⊢
    by_cases hw : s.windows = []
    · exact absurd hw (by rw [switch_to_empty s t wm mi ord hw] at hne; exact hne)
    · by_cases ht : t = 0
      · subst ht
        rw [switch_to_zero s wm mi ord]
        exact h hw
      · cases hr : s.resolveTarget t ord with
        | error e =>
          rw [switch_to_resolve_error s t wm mi ord e hw ht hr]
          exact h hw
        | ok j =>
          by_cases hj : j = s.current_index
          · rw [hj] at hr
            rw [switch_to_same s t wm mi ord hw ht hr]
            exact h hw
          · rw [switch_to_change_state s t wm mi ord j hw ht hr hj]
            exact resolveTarget_ok_lt s t ord j hr
  | sync a =>
    intro hne
    simp only [applyOp] at hne ⊢
    cases hp : position (fun w => w.id == a) s.windows with
    | some i =>
      rw [sync_with_active_found s a i hp]
      exact position_lt hp
    | none =>
      rw [sync_with_active_missed s a hp] at hne ⊢
      exact h hne
  | setIndex i =>
    intro hne
    simp only [applyOp] at hne ⊢
    by_cases hc : i < s.windows.length ∨ s.windows = []
    · rw [set_current_index_accept s i hc] at hne ⊢
      rcases hc with hlt | he
      · exact hlt
      · exact absurd he hne
    · push_neg at hc
      rw [set_current_index_reject s i hc.2 hc.1] at hne ⊢
      exact h hne

theorem runOps_inv (ops : List Op) : ∀ s, IndexInv s → IndexInv (runOps s ops) := by
  induction ops with
  | nil => intro s h; exact h
  | cons op ops ih => intro s h; exact ih _ (applyOp_inv s op h)

/-- C1: for every sequence of engine operations starting from a freshly
created engine, a nonempty window list keeps `0 ≤ current_index <
len(windows)`, and while the window list is (and stays) empty no operation
other than an explicit `set_current_index` (which installs the new "last
value") changes the index. -/
theorem c1_state_machine_invariant :
    (∀ ops : List Op, IndexInv (runOps CycleState.new ops)) ∧
    (∀ (s : CycleState) (op : Op), s.windows = [] → (applyOp s op).windows = [] →
      (∀ i, op ≠ Op.setIndex i) → (applyOp s op).current_index = s.current_index) := by
  constructor
  · intro ops
    exact runOps_inv ops CycleState.new (fun hne => absurd rfl hne)
  · intro s op hw hw2 hnot
    cases op with
    | update ws =>
      simp only [applyOp] at hw2 ⊢
      rw [update_windows_windows] at hw2
      exact update_windows_index_empty s ws hw2
    | forward wm mi =>
      simp only [applyOp]
      rw [cycle_forward_empty s wm mi hw]
    | backward wm mi =>
      simp only [applyOp]
      rw [cycle_backward_empty s wm mi hw]
    | switchTo t wm mi ord =>
      simp only [applyOp]
      rw [switch_to_empty s t wm mi ord hw]
    | sync a =>
      simp only [applyOp]
      rw [sync_with_active_missed s a (by rw [position, hw]; rfl)]
    | setIndex i =>
      exact absurd rfl (hnot i)

/-- Witness for C1 at concrete inputs: a two-window engine reached by a
concrete operation sequence satisfies the invariant, and `sync_with_active`
on an empty list leaves the (meaningless) index untouched. -/
theorem c1_state_machine_invariant_witness :
    (runOps CycleState.new
        [Op.update [⟨1, "A"⟩, ⟨2, "B"⟩], Op.setIndex 1]).current_index <
      (runOps CycleState.new
        [Op.update [⟨1, "A"⟩, ⟨2, "B"⟩], Op.setIndex 1]).windows.length ∧
    (applyOp { current_index := 5, windows := [], mirror := none }
      (Op.sync 3)).current_index = 5 :=
  ⟨c1_state_machine_invariant.1 [Op.update [⟨1, "A"⟩, ⟨2, "B"⟩], Op.setIndex 1]
      (by decide),
   c1_state_machine_invariant.2 { current_index := 5, windows := [], mirror := none }
      (Op.sync 3) rfl rfl (fun i hi => Op.noConfusion hi)⟩

theorem forwardStateN_index (wm : WM) (mi : Bool) :
    ∀ (k : Nat) (s : CycleState), s.windows ≠ [] →
      s.current_index < s.windows.length →
      (forwardStateN wm mi k s).current_index =
        (s.current_index + k) % s.windows.length ∧
      (forwardStateN wm mi k s).windows = s.windows := by
  intro k
  induction k with
  | zero =>
    intro s hw hi
    refine ⟨?_, rfl⟩
    show s.current_index = (s.current_index + 0) % s.windows.length
    rw [Nat.add_zero, Nat.mod_eq_of_lt hi]
  | succ k ih =>
    intro s hw hi
    have hstate := cycle_forward_state s wm mi hw
    have hidx : (s.cycle_forward wm mi).1.current_index =
        (s.current_index + 1) % s.windows.length := by rw [hstate]
    have hwin : (s.cycle_forward wm mi).1.windows = s.windows := by rw [hstate]
    have hnext := ih (s.cycle_forward wm mi).1
      (by rw [hwin]; exact hw)
      (by
        rw [hidx, hwin]
        exact Nat.mod_lt _ (List.length_pos.mpr hw))
    show (forwardStateN wm mi k (s.cycle_forward wm mi).1).current_index =
        (s.current_index + (k + 1)) % s.windows.length ∧
      (forwardStateN wm mi k (s.cycle_forward wm mi).1).windows = s.windows
    rw [hnext.1, hnext.2, hwin, hidx, Nat.mod_add_mod]
    refine ⟨?_, rfl⟩
    rw [Nat.add_assoc, Nat.add_comm 1 k]

/-- C2: for a window list of size at least 2 and a valid starting index,
with a backend whose `activate` always succeeds: `cycle_forward` followed by
`cycle_backward` restores the index, and `len(windows)` iterations of
`cycle_forward` alone return to the starting index (wraparound law). -/
theorem c2_cycle_wraparound (s : CycleState) (wm : WM) (mi : Bool)
    (hn : 2 ≤ s.windows.length) (hi : s.current_index < s.windows.length)
    (hact : ∀ id, wm.activate_ok id = true) :
    ((s.cycle_forward wm mi).1.cycle_backward wm mi).1.current_index =
      s.current_index ∧
    (forwardStateN wm mi s.windows.length s).current_index = s.current_index := by
  have hw : s.windows ≠ [] := by
    intro he
    rw [he] at hn
    simp at hn
  constructor
  · rw [cycle_forward_state s wm mi hw]
    rw [cycle_backward_state
      { s with current_index := (s.current_index + 1) % s.windows.length,
               mirror := some ((s.current_index + 1) % s.windows.length) } wm mi hw]
    dsimp only
    by_cases hc : s.current_index + 1 = s.windows.length
    · rw [hc, Nat.mod_self]
      rw [if_pos rfl]
      omega
    · rw [Nat.mod_eq_of_lt (by omega : s.current_index + 1 < s.windows.length)]
      rw [if_neg (by omega : ¬ s.current_index + 1 = 0)]
      omega
  · rw [(forwardStateN_index wm mi s.windows.length s hw hi).1,
      Nat.add_mod_right, Nat.mod_eq_of_lt hi]

/-- Witness for C2 at a concrete two-window engine with an all-succeeding
backend. -/
theorem c2_cycle_wraparound_witness :
    (((⟨0, [⟨1, "A"⟩, ⟨2, "B"⟩], none⟩ : CycleState).cycle_forward allOkWM
        false).1.cycle_backward allOkWM false).1.current_index = 0 ∧
    (forwardStateN allOkWM false 2
      (⟨0, [⟨1, "A"⟩, ⟨2, "B"⟩], none⟩ : CycleState)).current_index = 0 :=
  c2_cycle_wraparound ⟨0, [⟨1, "A"⟩, ⟨2, "B"⟩], none⟩ allOkWM false
    (by decide) (by decide) (fun _ => rfl)

/-- C3 (amended): `update_windows` preserves an index that is valid for the
new list and resets it to 0 when it is invalid and the new list is nonempty;
an update to an empty list retains the index; an update taking the engine
from an empty list to a nonempty list yields index 0 *unless* the retained
index is already valid for the new list, in which case it is preserved. -/
theorem c3_update_windows_index (s : CycleState) (ws : List EveWindow) :
    (s.current_index < ws.length →
      (s.update_windows ws).current_index = s.current_index) ∧
    (ws.length ≤ s.current_index → ws ≠ [] →
      (s.update_windows ws).current_index = 0) ∧
    (s.update_windows ws).windows = ws ∧
    (ws = [] → (s.update_windows ws).current_index = s.current_index) ∧
    (s.windows = [] → ws ≠ [] →
      (s.update_windows ws).current_index =
        if s.current_index < ws.length then s.current_index else 0) := by
  refine ⟨fun h => update_windows_index_keep s ws h,
    fun h1 h2 => update_windows_index_reset s ws h1 h2,
    update_windows_windows s ws,
    fun h => update_windows_index_empty s ws h,
    fun _ hne => ?_⟩
  by_cases hlt : s.current_index < ws.length
  · rw [if_pos hlt]
    exact update_windows_index_keep s ws hlt
  · rw [if_neg hlt]
    exact update_windows_index_reset s ws (Nat.le_of_not_lt hlt) hne

/-- Witness for C3's amended theorem at concrete inputs: a valid index is
preserved, an invalid one resets to 0. -/
theorem c3_update_windows_index_witness :
    ((⟨1, [], none⟩ : CycleState).update_windows
      [⟨1, "A"⟩, ⟨2, "B"⟩]).current_index = 1 ∧
    ((⟨5, [⟨9, "Z"⟩], none⟩ : CycleState).update_windows
      [⟨1, "A"⟩]).current_index = 0 :=
  ⟨(c3_update_windows_index ⟨1, [], none⟩ [⟨1, "A"⟩, ⟨2, "B"⟩]).1 (by decide),
   (c3_update_windows_index ⟨5, [⟨9, "Z"⟩], none⟩ [⟨1, "A"⟩]).2.1
     (by decide) (by decide)⟩

/-- C3 counterexample: from a fresh engine, set the index to 3 while four
windows are present, poll an empty list (index 3 retained), then poll a
five-window list — the empty-to-nonempty update preserves index 3 instead of
yielding 0, refuting "an update taking the engine from an empty list to a
nonempty list always yields index 0". -/
theorem c3_empty_to_nonempty_counterexample :
    (runOps CycleState.new
      [Op.update [⟨1, "A"⟩, ⟨2, "B"⟩, ⟨3, "C"⟩, ⟨4, "D"⟩], Op.setIndex 3,
        Op.update []]).windows = [] ∧
    ((runOps CycleState.new
      [Op.update [⟨1, "A"⟩, ⟨2, "B"⟩, ⟨3, "C"⟩, ⟨4, "D"⟩], Op.setIndex 3,
        Op.update []]).update_windows
        [⟨1, "A"⟩, ⟨2, "B"⟩, ⟨3, "C"⟩, ⟨4, "D"⟩, ⟨5, "E"⟩]).current_index = 3 := by
  decide

/-- C4: the guard behavior of `switch_to` — target 0 and an empty window
list succeed with no backend calls and an unchanged state; an out-of-range
target (with or against a character order) fails with OutOfRange, issues no
backend calls and leaves index and mirror untouched; a target resolving to
the current index succeeds with no backend calls. -/
theorem c4_switch_to_guards :
    (∀ (s : CycleState) (wm : WM) (mi : Bool) (ord : Option (List String)),
      s.switch_to 0 wm mi ord = (s, [], none)) ∧
    (∀ (s : CycleState) (t : Nat) (wm : WM) (mi : Bool)
        (ord : Option (List String)), s.windows = [] →
      s.switch_to t wm mi ord = (s, [], none)) ∧
    (∀ (s : CycleState) (t : Nat) (wm : WM) (mi : Bool) (chars : List String),
      s.windows ≠ [] → t ≠ 0 → chars.length ≤ t - 1 →
      s.switch_to t wm mi (some chars) = (s, [], some SwitchErr.outOfRange)) ∧
    (∀ (s : CycleState) (t : Nat) (wm : WM) (mi : Bool),
      s.windows ≠ [] → t ≠ 0 → s.windows.length ≤ t - 1 →
      s.switch_to t wm mi none = (s, [], some SwitchErr.outOfRange)) ∧
    (∀ (s : CycleState) (t : Nat) (wm : WM) (mi : Bool)
        (ord : Option (List String)), s.windows ≠ [] → t ≠ 0 →
      s.resolveTarget t ord = Except.ok s.current_index →
      s.switch_to t wm mi ord = (s, [], none)) := by
  refine ⟨fun s wm mi ord => switch_to_zero s wm mi ord,
    fun s t wm mi ord hw => switch_to_empty s t wm mi ord hw,
    fun s t wm mi chars hw ht hlen => ?_,
    fun s t wm mi hw ht hlen => ?_,
    fun s t wm mi ord hw ht hr => switch_to_same s t wm mi ord hw ht hr⟩
  · exact switch_to_resolve_error s t wm mi (some chars) SwitchErr.outOfRange hw ht
      (resolveTarget_some_oor s t chars hlen)
  · exact switch_to_resolve_error s t wm mi none SwitchErr.outOfRange hw ht
      (resolveTarget_none_oor s t hlen)

/-- Witness for C4 at concrete engines, mirroring the repository's own
tests (target 0, empty list, target 5 of 2 windows, target 2 of a 1-name
order, target 1 while already on index 0). -/
theorem c4_switch_to_guards_witness :
    ((⟨0, [⟨1, "A"⟩], none⟩ : CycleState).switch_to 0 allOkWM true none =
      (⟨0, [⟨1, "A"⟩], none⟩, [], none)) ∧
    (CycleState.new.switch_to 3 allOkWM false none = (CycleState.new, [], none)) ∧
    ((⟨0, [⟨1, "A"⟩, ⟨2, "B"⟩], none⟩ : CycleState).switch_to 5 allOkWM false none =
      (⟨0, [⟨1, "A"⟩, ⟨2, "B"⟩], none⟩, [], some SwitchErr.outOfRange)) ∧
    ((⟨0, [⟨1, "Alpha"⟩], none⟩ : CycleState).switch_to 2 allOkWM false
        (some ["Alpha"]) =
      (⟨0, [⟨1, "Alpha"⟩], none⟩, [], some SwitchErr.outOfRange)) ∧
    ((⟨0, [⟨1, "A"⟩, ⟨2, "B"⟩], none⟩ : CycleState).switch_to 1 allOkWM true none =
      (⟨0, [⟨1, "A"⟩, ⟨2, "B"⟩], none⟩, [], none)) :=
  ⟨c4_switch_to_guards.1 _ allOkWM true none,
   c4_switch_to_guards.2.1 _ 3 allOkWM false none rfl,
   c4_switch_to_guards.2.2.2.1 _ 5 allOkWM false (by decide) (by decide) (by decide),
   c4_switch_to_guards.2.2.1 _ 2 allOkWM false ["Alpha"] (by decide) (by decide)
     (by decide),
   c4_switch_to_guards.2.2.2.2 _ 1 allOkWM true none (by decide) (by decide) rfl⟩

/-- C5: target resolution of `switch_to` — with a character order,
`target-1` indexes the order (OutOfRange beyond it) and the result is the
position of the first window whose title equals the resolved name (NotFound
when none matches); without an order, `target-1` indexes the window list
directly (OutOfRange beyond it); and every resolved target different from
the current index issues exactly one `activate`, on the resolved window's
id. -/
theorem c5_switch_to_resolution :
    (∀ (s : CycleState) (t : Nat) (chars : List String), chars.length ≤ t - 1 →
      s.resolveTarget t (some chars) = Except.error SwitchErr.outOfRange) ∧
    (∀ (s : CycleState) (t : Nat) (chars : List String), t - 1 < chars.length →
      position (fun w => w.title == chars.getD (t - 1) "") s.windows = none →
      s.resolveTarget t (some chars) = Except.error SwitchErr.notFound) ∧
    (∀ (s : CycleState) (t : Nat) (chars : List String) (j : Nat),
      t - 1 < chars.length →
      position (fun w => w.title == chars.getD (t - 1) "") s.windows = some j →
      s.resolveTarget t (some chars) = Except.ok j) ∧
    (∀ (s : CycleState) (t : Nat), s.windows.length ≤ t - 1 →
      s.resolveTarget t none = Except.error SwitchErr.outOfRange) ∧
    (∀ (s : CycleState) (t : Nat), t - 1 < s.windows.length →
      s.resolveTarget t none = Except.ok (t - 1)) ∧
    (∀ (s : CycleState) (t : Nat) (wm : WM) (mi : Bool)
        (ord : Option (List String)) (j : Nat), s.windows ≠ [] → t ≠ 0 →
      s.resolveTarget t ord = Except.ok j → j ≠ s.current_index →
      (s.switch_to t wm mi ord).2.1.filter isActivateCall =
        [WMCall.activate (windowIdAt s.windows j)]) := by
  refine ⟨fun s t chars h => resolveTarget_some_oor s t chars h,
    fun s t chars hlen hp => resolveTarget_some_notFound s t chars hlen hp,
    fun s t chars j hlen hp => resolveTarget_some_found s t chars j hlen hp,
    fun s t h => resolveTarget_none_oor s t h,
    fun s t h => resolveTarget_none_ok s t h,
    fun s t wm mi ord j hw ht hr hj => ?_⟩
  rw [switch_to_change_calls s t wm mi ord j hw ht hr hj]
  cases mi <;>
    by_cases ha : wm.activate_ok (windowIdAt s.windows j) = true <;>
      simp [ha, List.filter_append, isActivateCall]

/-- Witness for C5 at the repository's own character-order scenario:
order `["Alpha","Beta","Gamma"]` over windows `[Gamma, Alpha, Beta]`;
target 1 resolves to index 1 and activates window id 200 exactly once;
target 3 with Gamma absent fails with NotFound. -/
theorem c5_switch_to_resolution_witness :
    ((⟨0, [⟨100, "Gamma"⟩, ⟨200, "Alpha"⟩, ⟨300, "Beta"⟩], none⟩ :
        CycleState).resolveTarget 1 (some ["Alpha", "Beta", "Gamma"]) =
      Except.ok 1) ∧
    ((⟨0, [⟨100, "Alpha"⟩, ⟨200, "Beta"⟩], none⟩ : CycleState).resolveTarget 3
        (some ["Alpha", "Beta", "Gamma"]) =
      Except.error SwitchErr.notFound) ∧
    ((⟨0, [⟨100, "Gamma"⟩, ⟨200, "Alpha"⟩, ⟨300, "Beta"⟩], none⟩ :
        CycleState).switch_to 1 allOkWM false
          (some ["Alpha", "Beta", "Gamma"])).2.1.filter isActivateCall =
      [WMCall.activate 200] :=
  ⟨c5_switch_to_resolution.2.2.1 _ 1 ["Alpha", "Beta", "Gamma"] 1
      (by decide) (by decide),
   c5_switch_to_resolution.2.1 _ 3 ["Alpha", "Beta", "Gamma"]
      (by decide) (by decide),
   c5_switch_to_resolution.2.2.2.2.2 _ 1 allOkWM false
      (some ["Alpha", "Beta", "Gamma"]) 1 (by decide) (by decide) rfl
      (by decide)⟩

/-- C6: whenever a cycle or switch changes the index with minimize-on-switch
enabled, the backend calls are exactly `restore` on the new target, then
`activate` on the new target, then — only when `activate` succeeded —
`minimize` on the previous target (so `minimize` is never issued before
`activate`); the operation's outcome equals `activate`'s outcome, with
`restore`/`minimize` results never consulted (the oracle's `restore_ok` /
`minimize_ok` are universally quantified and absent from the conclusion). -/
theorem c6_minimize_ordering :
    (∀ (s : CycleState) (wm : WM), s.windows ≠ [] →
      (s.current_index + 1) % s.windows.length ≠ s.current_index →
      (s.cycle_forward wm true).2.1 =
        [WMCall.restore (windowIdAt s.windows
            ((s.current_index + 1) % s.windows.length)),
         WMCall.activate (windowIdAt s.windows
            ((s.current_index + 1) % s.windows.length))] ++
        (if wm.activate_ok (windowIdAt s.windows
            ((s.current_index + 1) % s.windows.length)) then
          [WMCall.minimize (windowIdAt s.windows s.current_index)]
        else []) ∧
      ((s.cycle_forward wm true).2.2 = true ↔
        wm.activate_ok (windowIdAt s.windows
          ((s.current_index + 1) % s.windows.length)) = true)) ∧
    (∀ (s : CycleState) (wm : WM), s.windows ≠ [] →
      (if s.current_index = 0 then s.windows.length - 1
        else s.current_index - 1) ≠ s.current_index →
      (s.cycle_backward wm true).2.1 =
        [WMCall.restore (windowIdAt s.windows
            (if s.current_index = 0 then s.windows.length - 1
              else s.current_index - 1)),
         WMCall.activate (windowIdAt s.windows
            (if s.current_index = 0 then s.windows.length - 1
              else s.current_index - 1))] ++
        (if wm.activate_ok (windowIdAt s.windows
            (if s.current_index = 0 then s.windows.length - 1
              else s.current_index - 1)) then
          [WMCall.minimize (windowIdAt s.windows s.current_index)]
        else []) ∧
      ((s.cycle_backward wm true).2.2 = true ↔
        wm.activate_ok (windowIdAt s.windows
          (if s.current_index = 0 then s.windows.length - 1
            else s.current_index - 1)) = true)) ∧
    (∀ (s : CycleState) (t : Nat) (wm : WM) (ord : Option (List String))
        (j : Nat), s.windows ≠ [] → t ≠ 0 →
      s.resolveTarget t ord = Except.ok j → j ≠ s.current_index →
      (s.switch_to t wm true ord).2.1 =
        [WMCall.restore (windowIdAt s.windows j),
         WMCall.activate (windowIdAt s.windows j)] ++
        (if wm.activate_ok (windowIdAt s.windows j) then
          [WMCall.minimize (windowIdAt s.windows s.current_index)]
        else []) ∧
      ((s.switch_to t wm true ord).2.2 = none ↔
        wm.activate_ok (windowIdAt s.windows j) = true)) := by
  refine ⟨fun s wm hw hne => ?_, fun s wm hw hne => ?_,
    fun s t wm ord j hw ht hr hj => ?_⟩
  · have hne' : s.current_index ≠ (s.current_index + 1) % s.windows.length :=
      Ne.symm hne
    constructor
    · rw [cycle_forward_calls s wm true hw]
      by_cases ha : wm.activate_ok (windowIdAt s.windows
          ((s.current_index + 1) % s.windows.length)) = true <;>
        simp [ha, hne']
    · rw [cycle_forward_result s wm true hw]
  · have hne' : s.current_index ≠
        (if s.current_index = 0 then s.windows.length - 1
          else s.current_index - 1) := Ne.symm hne
    constructor
    · rw [cycle_backward_calls s wm true hw]
      by_cases ha : wm.activate_ok (windowIdAt s.windows
          (if s.current_index = 0 then s.windows.length - 1
            else s.current_index - 1)) = true <;>
        simp [ha, hne']
    · rw [cycle_backward_result s wm true hw]
  · constructor
    · rw [switch_to_change_calls s t wm true ord j hw ht hr hj]
      by_cases ha : wm.activate_ok (windowIdAt s.windows j) = true <;>
        simp [ha]
    · rw [switch_to_change_result s t wm true ord j hw ht hr hj]
      by_cases ha : wm.activate_ok (windowIdAt s.windows j) = true <;>
        simp [ha]

/-- Witness for C6 at a concrete two-window engine: with an all-succeeding
backend the forward cycle issues restore 2, activate 2, minimize 1 in that
order and succeeds. -/
theorem c6_minimize_ordering_witness :
    ((⟨0, [⟨1, "A"⟩, ⟨2, "B"⟩], none⟩ : CycleState).cycle_forward allOkWM
        true).2.1 =
      [WMCall.restore 2, WMCall.activate 2] ++
        (if allOkWM.activate_ok 2 then [WMCall.minimize 1] else []) ∧
    (((⟨0, [⟨1, "A"⟩, ⟨2, "B"⟩], none⟩ : CycleState).cycle_forward allOkWM
        true).2.2 = true ↔ allOkWM.activate_ok 2 = true) :=
  c6_minimize_ordering.1 ⟨0, [⟨1, "A"⟩, ⟨2, "B"⟩], none⟩ allOkWM
    (by decide) (by decide)

/-- C7 counterexample: on a two-window engine whose backend fails every
`activate`, `cycle_forward` returns a failure yet leaves the in-memory index
at 1 (changed from 0), and the window at that final index was never
successfully activated (the only call issued was its failing `activate`) —
refuting the claim that, mirror aside, a failed cycle never leaves the index
on a never-activated window. -/
theorem c7_failed_activate_counterexample :
    ((⟨0, [⟨1, "A"⟩, ⟨2, "B"⟩], none⟩ : CycleState).cycle_forward
        activateFailWM false).2.2 = false ∧
    ((⟨0, [⟨1, "A"⟩, ⟨2, "B"⟩], none⟩ : CycleState).cycle_forward
        activateFailWM false).1.current_index = 1 ∧
    ((⟨0, [⟨1, "A"⟩, ⟨2, "B"⟩], none⟩ : CycleState).cycle_forward
        activateFailWM false).2.1 = [WMCall.activate 2] ∧
    activateFailWM.activate_ok 2 = false := by
  decide

/-- C7 (amended): a failed resolution (OutOfRange/NotFound) leaves the whole
engine state — index and mirror — unchanged; when the failure is the
`activate` call itself, the index (like the mirror) already points at the
intended target, whose activation was attempted in the trace and failed. -/
theorem c7_error_paths :
    (∀ (s : CycleState) (t : Nat) (wm : WM) (mi : Bool)
        (ord : Option (List String)) (e : SwitchErr),
      e ≠ SwitchErr.activateFailed →
      (s.switch_to t wm mi ord).2.2 = some e →
      (s.switch_to t wm mi ord).1 = s) ∧
    (∀ (s : CycleState) (wm : WM) (mi : Bool),
      (s.cycle_forward wm mi).2.2 = false →
      WMCall.activate (windowIdAt (s.cycle_forward wm mi).1.windows
          (s.cycle_forward wm mi).1.current_index) ∈ (s.cycle_forward wm mi).2.1 ∧
      wm.activate_ok (windowIdAt (s.cycle_forward wm mi).1.windows
        (s.cycle_forward wm mi).1.current_index) = false) ∧
    (∀ (s : CycleState) (wm : WM) (mi : Bool),
      (s.cycle_backward wm mi).2.2 = false →
      WMCall.activate (windowIdAt (s.cycle_backward wm mi).1.windows
          (s.cycle_backward wm mi).1.current_index) ∈ (s.cycle_backward wm mi).2.1 ∧
      wm.activate_ok (windowIdAt (s.cycle_backward wm mi).1.windows
        (s.cycle_backward wm mi).1.current_index) = false) ∧
    (∀ (s : CycleState) (t : Nat) (wm : WM) (mi : Bool)
        (ord : Option (List String)),
      (s.switch_to t wm mi ord).2.2 = some SwitchErr.activateFailed →
      WMCall.activate (windowIdAt (s.switch_to t wm mi ord).1.windows
          (s.switch_to t wm mi ord).1.current_index) ∈ (s.switch_to t wm mi ord).2.1 ∧
      wm.activate_ok (windowIdAt (s.switch_to t wm mi ord).1.windows
        (s.switch_to t wm mi ord).1.current_index) = false) := by
  refine ⟨fun s t wm mi ord e he hf => ?_, fun s wm mi hf => ?_,
    fun s wm mi hf => ?_, fun s t wm mi ord hf => ?_⟩
  · by_cases hw : s.windows = []
    · rw [switch_to_empty s t wm mi ord hw]
    · by_cases ht : t = 0
      · subst ht
        rw [switch_to_zero s wm mi ord]
      · cases hr : s.resolveTarget t ord with
        | error e' =>
          rw [switch_to_resolve_error s t wm mi ord e' hw ht hr]
        | ok j =>
          by_cases hj : j = s.current_index
          · rw [hj] at hr
            rw [switch_to_same s t wm mi ord hw ht hr]
          · rw [switch_to_change_result s t wm mi ord j hw ht hr hj] at hf
            split at hf
            · simp at hf
            · cases hf
              exact absurd rfl he
  · by_cases hw : s.windows = []
    · rw [cycle_forward_empty s wm mi hw] at hf
      simp at hf
    · have hres := cycle_forward_result s wm mi hw
      rw [hf] at hres
      refine ⟨?_, ?_⟩
      · rw [cycle_forward_state s wm mi hw, cycle_forward_calls s wm mi hw]
        simp
      · rw [cycle_forward_state s wm mi hw]
        exact hres.symm
  · by_cases hw : s.windows = []
    · rw [cycle_backward_empty s wm mi hw] at hf
      simp at hf
    · have hres := cycle_backward_result s wm mi hw
      rw [hf] at hres
      refine ⟨?_, ?_⟩
      · rw [cycle_backward_state s wm mi hw, cycle_backward_calls s wm mi hw]
        simp
      · rw [cycle_backward_state s wm mi hw]
        exact hres.symm
  · by_cases hw : s.windows = []
    · rw [switch_to_empty s t wm mi ord hw] at hf
      simp at hf
    · by_cases ht : t = 0
      · subst ht
        rw [switch_to_zero s wm mi ord] at hf
        simp at hf
      · cases hr : s.resolveTarget t ord with
        | error e' =>
          rw [switch_to_resolve_error s t wm mi ord e' hw ht hr] at hf
          rcases resolveTarget_error_cases s t ord e' hr with h' | h' <;>
            · subst h'
              simp at hf
        | ok j =>
          by_cases hj : j = s.current_index
          · rw [hj] at hr
            rw [switch_to_same s t wm mi ord hw ht hr] at hf
            simp at hf
          · rw [switch_to_change_result s t wm mi ord j hw ht hr hj] at hf
            split at hf
            · simp at hf
            · rename_i ha
              simp only [Bool.not_eq_true] at ha
              refine ⟨?_, ?_⟩
              · rw [switch_to_change_state s t wm mi ord j hw ht hr hj,
                  switch_to_change_calls s t wm mi ord j hw ht hr hj]
                simp
              · rw [switch_to_change_state s t wm mi ord j hw ht hr hj]
                exact ha

/-- Witness for C7's amended theorem: a resolution failure (target 5 of 2
windows) leaves the state untouched, and for a failing `activate` the final
index's window is exactly the one whose activation was attempted and
failed. -/
theorem c7_error_paths_witness :
    ((⟨0, [⟨1, "A"⟩, ⟨2, "B"⟩], none⟩ : CycleState).switch_to 5 allOkWM
        false none).1 = ⟨0, [⟨1, "A"⟩, ⟨2, "B"⟩], none⟩ ∧
    (WMCall.activate (windowIdAt
        ((⟨0, [⟨1, "A"⟩, ⟨2, "B"⟩], none⟩ : CycleState).cycle_backward
          activateFailWM true).1.windows
        ((⟨0, [⟨1, "A"⟩, ⟨2, "B"⟩], none⟩ : CycleState).cycle_backward
          activateFailWM true).1.current_index) ∈
      ((⟨0, [⟨1, "A"⟩, ⟨2, "B"⟩], none⟩ : CycleState).cycle_backward
        activateFailWM true).2.1 ∧
      activateFailWM.activate_ok (windowIdAt
        ((⟨0, [⟨1, "A"⟩, ⟨2, "B"⟩], none⟩ : CycleState).cycle_backward
          activateFailWM true).1.windows
        ((⟨0, [⟨1, "A"⟩, ⟨2, "B"⟩], none⟩ : CycleState).cycle_backward
          activateFailWM true).1.current_index) = false) :=
  ⟨c7_error_paths.1 ⟨0, [⟨1, "A"⟩, ⟨2, "B"⟩], none⟩ 5 allOkWM false none
      SwitchErr.outOfRange (by decide) rfl,
   c7_error_paths.2.2.1 ⟨0, [⟨1, "A"⟩, ⟨2, "B"⟩], none⟩ activateFailWM true rfl⟩

/-- C8 counterexample: with a single window, `cycle_forward` keeps index 0
but does issue a backend call — its trace is `[activate 7]`, not empty —
refuting "no backend calls are issued". -/
theorem c8_single_window_counterexample :
    ((⟨0, [⟨7, "A"⟩], none⟩ : CycleState).cycle_forward allOkWM false).2.1 =
      [WMCall.activate 7] ∧
    ((⟨0, [⟨7, "A"⟩], none⟩ : CycleState).cycle_forward allOkWM
        false).1.current_index = 0 := by
  decide

/-- C8 (amended): with exactly one window and index 0, `cycle_forward` and
`cycle_backward` keep the index at 0 and never issue a `minimize`, but they
still issue `activate` on the single window, preceded by `restore` when
minimize-on-switch is enabled. -/
theorem c8_single_window (s : CycleState) (wm : WM) (mi : Bool)
    (h1 : s.windows.length = 1) (h0 : s.current_index = 0) :
    ((s.cycle_forward wm mi).1.current_index = 0 ∧
      (s.cycle_forward wm mi).2.1 =
        (if mi then [WMCall.restore (windowIdAt s.windows 0)] else []) ++
          [WMCall.activate (windowIdAt s.windows 0)] ∧
      (s.cycle_forward wm mi).2.1.filter isMinimizeCall = []) ∧
    ((s.cycle_backward wm mi).1.current_index = 0 ∧
      (s.cycle_backward wm mi).2.1 =
        (if mi then [WMCall.restore (windowIdAt s.windows 0)] else []) ++
          [WMCall.activate (windowIdAt s.windows 0)] ∧
      (s.cycle_backward wm mi).2.1.filter isMinimizeCall = []) := by
  have hw : s.windows ≠ [] := by
    intro he
    rw [he] at h1
    cases h1
  have hfc := cycle_forward_calls s wm mi hw
  have hbc := cycle_backward_calls s wm mi hw
  rw [h0, h1] at hfc hbc
  norm_num at hfc hbc
  refine ⟨⟨?_, ?_, ?_⟩, ?_, ?_, ?_⟩
  · rw [cycle_forward_state s wm mi hw, h0, h1]
  · rw [hfc]
  · rw [hfc]
    cases mi <;> simp [isMinimizeCall]
  · rw [cycle_backward_state s wm mi hw, h0, h1]
    simp
  · rw [hbc]
  · rw [hbc]
    cases mi <;> simp [isMinimizeCall]

/-- Witness for C8's amended theorem at a concrete one-window engine with
minimize-on-switch enabled. -/
theorem c8_single_window_witness :
    (((⟨0, [⟨7, "A"⟩], none⟩ : CycleState).cycle_forward allOkWM
        true).1.current_index = 0 ∧
      ((⟨0, [⟨7, "A"⟩], none⟩ : CycleState).cycle_forward allOkWM true).2.1 =
        (if true then [WMCall.restore (windowIdAt [⟨7, "A"⟩] 0)] else []) ++
          [WMCall.activate (windowIdAt [⟨7, "A"⟩] 0)] ∧
      (((⟨0, [⟨7, "A"⟩], none⟩ : CycleState).cycle_forward allOkWM
        true).2.1.filter isMinimizeCall = [])) ∧
    (((⟨0, [⟨7, "A"⟩], none⟩ : CycleState).cycle_backward allOkWM
        true).1.current_index = 0 ∧
      ((⟨0, [⟨7, "A"⟩], none⟩ : CycleState).cycle_backward allOkWM true).2.1 =
        (if true then [WMCall.restore (windowIdAt [⟨7, "A"⟩] 0)] else []) ++
          [WMCall.activate (windowIdAt [⟨7, "A"⟩] 0)] ∧
      (((⟨0, [⟨7, "A"⟩], none⟩ : CycleState).cycle_backward allOkWM
        true).2.1.filter isMinimizeCall = [])) :=
  c8_single_window ⟨0, [⟨7, "A"⟩], none⟩ allOkWM true rfl rfl

/-- C10 (implicit): `set_current_index(i)` is silently ignored when the list
is nonempty and `i` is out of range, accepts any `i` while the list is
empty, and a subsequent `update_windows` with a nonempty list preserves such
an arbitrarily set index whenever it is in range for the new list. -/
theorem c10_set_current_index (s : CycleState) (i : Nat) :
    (s.windows ≠ [] → s.windows.length ≤ i → s.set_current_index i = s) ∧
    (s.windows = [] → (s.set_current_index i).current_index = i) ∧
    (∀ ws : List EveWindow, s.windows = [] → i < ws.length →
      ((s.set_current_index i).update_windows ws).current_index = i) := by
  refine ⟨fun hne hle => set_current_index_reject s i hne hle,
    fun hw => ?_, fun ws hw hlt => ?_⟩
  · rw [set_current_index_accept s i (Or.inr hw)]
  · have h2 : (s.set_current_index i).current_index = i := by
      rw [set_current_index_accept s i (Or.inr hw)]
    rw [update_windows_index_keep _ ws (by rw [h2]; exact hlt), h2]

/-- Witness for C10 at concrete engines: an out-of-range set on a one-window
list is ignored, a set on an empty fresh engine takes any value, and a later
nonempty update preserves it. -/
theorem c10_set_current_index_witness :
    ((⟨0, [⟨1, "A"⟩], none⟩ : CycleState).set_current_index 5 =
      ⟨0, [⟨1, "A"⟩], none⟩) ∧
    ((CycleState.new.set_current_index 2).current_index = 2) ∧
    (((CycleState.new.set_current_index 2).update_windows
        [⟨1, "A"⟩, ⟨2, "B"⟩, ⟨3, "C"⟩]).current_index = 2) :=
  ⟨(c10_set_current_index ⟨0, [⟨1, "A"⟩], none⟩ 5).1 (by decide) (by decide),
   (c10_set_current_index CycleState.new 2).2.1 rfl,
   (c10_set_current_index CycleState.new 2).2.2 [⟨1, "A"⟩, ⟨2, "B"⟩, ⟨3, "C"⟩]
     rfl (by decide)⟩

theorem isEveTitle_iff (t : String) :
    isEveTitle t = true ↔
      (leadsWith eveTitleChars t.data = true ∧
        containsSub t.data launcherChars = false) := by
  rw [isEveTitle]
  cases h1 : leadsWith eveTitleChars t.data <;>
    cases h2 : containsSub t.data launcherChars <;> simp

theorem x11_get_eve_windows_sound (input : List (Nat × Option String)) :
    ∀ w ∈ X11Manager.get_eve_windows input,
      ∃ id t, (id, some t) ∈ input ∧ isEveTitle t = true ∧
        w = ⟨id, stripEve t⟩ := by
  induction input with
  | nil =>
    intro w hw
    simp [X11Manager.get_eve_windows] at hw
  | cons p rest ih =>
    obtain ⟨id, ot⟩ := p
    cases ot with
    | none =>
      intro w hw
      simp only [X11Manager.get_eve_windows] at hw
      obtain ⟨id', t', hm, hf, he⟩ := ih w hw
      exact ⟨id', t', List.mem_cons_of_mem _ hm, hf, he⟩
    | some t =>
      intro w hw
      simp only [X11Manager.get_eve_windows] at hw
      split at hw
      · rename_i hf
        rcases List.mem_cons.mp hw with he | hm
        · exact ⟨id, t, List.mem_cons_self _ _, hf, he⟩
        · obtain ⟨id', t', hm', hf', he'⟩ := ih w hm
          exact ⟨id', t', List.mem_cons_of_mem _ hm', hf', he'⟩
      · obtain ⟨id', t', hm', hf', he'⟩ := ih w hw
        exact ⟨id', t', List.mem_cons_of_mem _ hm', hf', he'⟩

theorem x11_get_eve_windows_nil (input : List (Nat × Option String)) :
    (∀ id t, (id, some t) ∈ input → isEveTitle t = false) →
    X11Manager.get_eve_windows input = [] := by
  induction input with
  | nil => intro _; rfl
  | cons p rest ih =>
    intro h
    obtain ⟨id, ot⟩ := p
    cases ot with
    | none =>
      simp only [X11Manager.get_eve_windows]
      exact ih (fun id' t' hm => h id' t' (List.mem_cons_of_mem _ hm))
    | some t =>
      have hf : isEveTitle t = false := h id t (List.mem_cons_self _ _)
      simp only [X11Manager.get_eve_windows, hf, Bool.false_eq_true, if_false]
      exact ih (fun id' t' hm => h id' t' (List.mem_cons_of_mem _ hm))

theorem kwin_get_eve_windows_sound (input : List (String × String)) :
    ∀ w ∈ KWinManager.get_eve_windows input,
      ∃ idStr t, (idStr, t) ∈ input ∧ isEveTitle t = true ∧
        w = ⟨kwinParseId idStr, stripEve t⟩ := by
  induction input with
  | nil =>
    intro w hw
    simp [KWinManager.get_eve_windows] at hw
  | cons p rest ih =>
    obtain ⟨idStr, t⟩ := p
    intro w hw
    simp only [KWinManager.get_eve_windows] at hw
    split at hw
    · rename_i hf
      split at hw
      · rcases List.mem_cons.mp hw with he | hm
        · exact ⟨idStr, t, List.mem_cons_self _ _, hf, he⟩
        · obtain ⟨id', t', hm', hf', he'⟩ := ih w hm
          exact ⟨id', t', List.mem_cons_of_mem _ hm', hf', he'⟩
      · obtain ⟨id', t', hm', hf', he'⟩ := ih w hw
        exact ⟨id', t', List.mem_cons_of_mem _ hm', hf', he'⟩
    · obtain ⟨id', t', hm', hf', he'⟩ := ih w hw
      exact ⟨id', t', List.mem_cons_of_mem _ hm', hf', he'⟩

theorem kwin_get_eve_windows_nil (input : List (String × String)) :
    (∀ idStr t, (idStr, t) ∈ input → isEveTitle t = false) →
    KWinManager.get_eve_windows input = [] := by
  induction input with
  | nil => intro _; rfl
  | cons p rest ih =>
    intro h
    obtain ⟨idStr, t⟩ := p
    have hf : isEveTitle t = false := h idStr t (List.mem_cons_self _ _)
    simp only [KWinManager.get_eve_windows, hf, Bool.false_eq_true, if_false]
    exact ih (fun id' t' hm => h id' t' (List.mem_cons_of_mem _ hm))

theorem hyprland_get_eve_windows_sound (input : List HyprClient) :
    ∀ w ∈ HyprlandManager.get_eve_windows input,
      ∃ c, c ∈ input ∧ ∃ t a, c.title = some t ∧ c.address = some a ∧
        isEveTitle t = true ∧ w = ⟨hyprParseAddr a, stripEve t⟩ := by
  induction input with
  | nil =>
    intro w hw
    simp [HyprlandManager.get_eve_windows] at hw
  | cons c rest ih =>
    intro w hw
    simp only [HyprlandManager.get_eve_windows] at hw
    cases hct : c.title with
    | none =>
      rw [hct] at hw
      obtain ⟨c', hm', hrest⟩ := ih w hw
      exact ⟨c', List.mem_cons_of_mem _ hm', hrest⟩
    | some t =>
      rw [hct] at hw
      dsimp only at hw
      split at hw
      · rename_i hf
        cases hca : c.address with
        | none =>
          rw [hca] at hw
          obtain ⟨c', hm', hrest⟩ := ih w hw
          exact ⟨c', List.mem_cons_of_mem _ hm', hrest⟩
        | some a =>
          rw [hca] at hw
          dsimp only at hw
          rcases List.mem_cons.mp hw with he | hm
          · exact ⟨c, List.mem_cons_self _ _, t, a, hct, hca, hf, he⟩
          · obtain ⟨c', hm', hrest⟩ := ih w hm
            exact ⟨c', List.mem_cons_of_mem _ hm', hrest⟩
      · obtain ⟨c', hm', hrest⟩ := ih w hw
        exact ⟨c', List.mem_cons_of_mem _ hm', hrest⟩

theorem hyprland_get_eve_windows_nil (input : List HyprClient) :
    (∀ c, c ∈ input → ∀ t, c.title = some t → isEveTitle t = false) →
    HyprlandManager.get_eve_windows input = [] := by
  induction input with
  | nil => intro _; rfl
  | cons c rest ih =>
    intro h
    simp only [HyprlandManager.get_eve_windows]
    cases hct : c.title with
    | none =>
      exact ih (fun c' hm => h c' (List.mem_cons_of_mem _ hm))
    | some t =>
      have hf : isEveTitle t = false := h c (List.mem_cons_self _ _) t hct
      dsimp only
      rw [hf]
      simp only [Bool.false_eq_true, if_false]
      exact ih (fun c' hm => h c' (List.mem_cons_of_mem _ hm))

/-- C9 (amended): every record an enumerator returns comes from an input
window whose full title starts with `"EVE - "` and does not contain
`"Launcher"`, and its stored title is the full title with all leading
repetitions of that prefix removed (Rust `trim_start_matches`, see
`stripEve`), not just the single leading occurrence; and when no input
window passes the filter an enumerator returns the empty list rather than
failing — for the X11, KWin and Hyprland enumerators. -/
theorem c9_enumerate_filter :
    (∀ t, isEveTitle t = true ↔
      (leadsWith eveTitleChars t.data = true ∧
        containsSub t.data launcherChars = false)) ∧
    (∀ (input : List (Nat × Option String)) (w : EveWindow),
      w ∈ X11Manager.get_eve_windows input →
      ∃ id t, (id, some t) ∈ input ∧ isEveTitle t = true ∧
        w = ⟨id, stripEve t⟩) ∧
    (∀ input : List (Nat × Option String),
      (∀ id t, (id, some t) ∈ input → isEveTitle t = false) →
      X11Manager.get_eve_windows input = []) ∧
    (∀ (input : List (String × String)) (w : EveWindow),
      w ∈ KWinManager.get_eve_windows input →
      ∃ idStr t, (idStr, t) ∈ input ∧ isEveTitle t = true ∧
        w = ⟨kwinParseId idStr, stripEve t⟩) ∧
    (∀ input : List (String × String),
      (∀ idStr t, (idStr, t) ∈ input → isEveTitle t = false) →
      KWinManager.get_eve_windows input = []) ∧
    (∀ (input : List HyprClient) (w : EveWindow),
      w ∈ HyprlandManager.get_eve_windows input →
      ∃ c, c ∈ input ∧ ∃ t a, c.title = some t ∧ c.address = some a ∧
        isEveTitle t = true ∧ w = ⟨hyprParseAddr a, stripEve t⟩) ∧
    (∀ input : List HyprClient,
      (∀ c, c ∈ input → ∀ t, c.title = some t → isEveTitle t = false) →
      HyprlandManager.get_eve_windows input = []) :=
  ⟨isEveTitle_iff, x11_get_eve_windows_sound, x11_get_eve_windows_nil,
   kwin_get_eve_windows_sound, kwin_get_eve_windows_nil,
   hyprland_get_eve_windows_sound, hyprland_get_eve_windows_nil⟩

/-- Witness for C9's amended theorem at concrete inputs: a matching X11
window yields a record with the prefix stripped, and an input with no
matching title enumerates to the empty list. -/
theorem c9_enumerate_filter_witness :
    (∃ id t, (id, some t) ∈ [((1 : Nat), some "EVE - Alice")] ∧
      isEveTitle t = true ∧
      (⟨1, "Alice"⟩ : EveWindow) = ⟨id, stripEve t⟩) ∧
    X11Manager.get_eve_windows [(2, some "Firefox")] = [] :=
  ⟨c9_enumerate_filter.2.1 [((1 : Nat), some "EVE - Alice")] ⟨1, "Alice"⟩
      (by decide),
   c9_enumerate_filter.2.2.1 [(2, some "Firefox")]
      (fun id t ht => by
        simp only [List.mem_singleton, Prod.mk.injEq, Option.some.injEq] at ht
        obtain ⟨h1, h2⟩ := ht
        subst h2
        decide)⟩

/-- C9 counterexample: the enumerators strip the prefix repeatedly
(`trim_start_matches`), so for the full title `"EVE - EVE - A"` the stored
title is `"A"`, not the `"EVE - A"` obtained by removing the prefix once —
refuting "the record's stored title equals the full title with that prefix
removed". -/
theorem c9_strip_counterexample :
    X11Manager.get_eve_windows [(1, some "EVE - EVE - A")] =
      [⟨1, "A"⟩] ∧
    stripEveOnce "EVE - EVE - A" = "EVE - A" ∧
    ("A" : String) ≠ "EVE - A" := by
  decide

end Nicotine
